import Mathlib

/-!
Verification of the `aci_vmm_controller` Ansible module
(`lib/ansible/modules/network/aci/aci_vmm_controller.py`).

The module's `main()` is embedded as a pure function from a parameter
record to a termination result together with the list of calls it issues
to the shared ACI client object.  Machinery that lives outside this file
in the shared framework (`AnsibleModule` argument validation, the ACI
client's diff/write semantics, alias resolution) is modelled from the
specification, and each such definition is marked with a doc comment
starting `Modelled from the spec:`.
-/

/-- Input record of the module: one field per entry of `argument_spec`
(source lines 244-252).  Every parameter is optional (`none` = not
supplied); `state` carries the framework-applied default `present`
(source line 251). -/
structure Params where
  name : Option String := none
  container : Option String := none
  credential : Option String := none
  description : Option String := none
  domain : Option String := none
  host_or_ip : Option String := none
  state : String := "present"
  vm_provider : Option String := none
deriving DecidableEq

/-- Embedding of the Python dict `VM_PROVIDER_MAPPING` (source lines
231-239) as a key-lookup function: `some` of the display token on the 7
provider keys, `none` (a Python `KeyError` on subscript) otherwise. -/
def VM_PROVIDER_MAPPING (v : String) : Option String :=
  if v = "cloudfoundry" then some "CloudFoundry"
  else if v = "kubernetes" then some "Kubernetes"
  else if v = "microsoft" then some "Microsoft"
  else if v = "openshift" then some "OpenShift"
  else if v = "openstack" then some "OpenStack"
  else if v = "redhat" then some "Redhat"
  else if v = "vmware" then some "VMware"
  else none

/-- The display tokens, in source order (values of `VM_PROVIDER_MAPPING`). -/
def providerTokens : List String :=
  ["CloudFoundry", "Kubernetes", "Microsoft", "OpenShift", "OpenStack", "Redhat", "VMware"]

/-- Python `str.format` rendering of a possibly-absent argument: Python
prints the value `None` as the four characters `None`. -/
def pyFmt : Option String → String
  | some s => s
  | none => "None"

/-- The distinguished name built at source line 274:
`uni/vmmp-` + token + `/dom-` + domain + `/ctrlr-` + name. -/
def ctrlr_mo_str (tok : String) (domain nm : Option String) : String :=
  "uni/vmmp-" ++ tok ++ "/dom-" ++ pyFmt domain ++ "/ctrlr-" ++ pyFmt nm

/-- The relative name built at source line 275:
`vmmp-` + token + `/dom-` + domain + `/ctrlr-` + name. -/
def ctrlr_rn_str (tok : String) (domain nm : Option String) : String :=
  "vmmp-" ++ tok ++ "/dom-" ++ pyFmt domain ++ "/ctrlr-" ++ pyFmt nm

/-- The `root_class` descriptor handed to `aci.construct_url` (source
lines 282-289); `filter_name` and `filter_ctrlr` are the two entries of
`target_filter`. -/
structure RootClass where
  aci_class : String
  aci_rn : String
  module_object : Option String
  filter_name : Option String
  filter_ctrlr : Option String
deriving DecidableEq

/-- The `class_config` dict passed to `aci.payload` (source lines
296-301), keeping Python's `None` values explicit. -/
def class_config (p : Params) : List (String × Option String) :=
  [("descr", p.description), ("hostOrIp", p.host_or_ip),
   ("name", p.name), ("rootContName", p.container)]

/-- Arguments of the `aci.payload` call (source lines 294-309):
the class name, the `class_config` dict, and the single
`vmmRsAcc` child whose `tDn` attribute is the `credential` parameter. -/
structure PayloadCall where
  aci_class : String
  config : List (String × Option String)
  child_tDn : Option String
deriving DecidableEq

/-- One call on the shared ACI client object, in the order `main()`
issues them. -/
inductive ClientCall where
  | construct_url (c : RootClass)
  | get_existing
  | payload (c : PayloadCall)
  | get_diff (cls : String)
  | post_config
  | delete_config
  | exit_json
deriving DecidableEq

/-- Kinds of structured configuration failure raised by the framework
during argument processing. -/
inductive ConfigError where
  | badChoice
  | missingDomain
deriving DecidableEq

/-- How one invocation of `main()` terminates. -/
inductive Result where
  | failJson (e : ConfigError)
  | keyError
  | exited
deriving DecidableEq

/-- Modelled from the spec: `AnsibleModule` argument validation (the
framework code behind source lines 251-262 is not part of this
repository slice).  Choice constraints first (`state` against its three
choices, `vm_provider` against the mapping's keys, source lines
251-252), then the `required_if` rules of source lines 258-261: per spec
section 4.1 step 1, when `state` is `present` or `absent` the `domain`
parameter must be supplied and non-empty. -/
def validateParams (p : Params) : Option ConfigError :=
  if p.state = "absent" ∨ p.state = "present" ∨ p.state = "query" then
    if p.vm_provider.all (fun v => (VM_PROVIDER_MAPPING v).isSome) then
      if (p.state = "absent" ∨ p.state = "present") ∧
          (p.domain = none ∨ p.domain = some "") then
        some ConfigError.missingDomain
      else none
    else some ConfigError.badChoice
  else some ConfigError.badChoice

/-- Embedding of `main()` (source lines 242-318): validate the
arguments, build the identifier (a `KeyError` escapes when
`vm_provider` is absent, source line 274), clear the identifier when
`name` is absent (lines 277-279), then issue the client calls of lines
282-318: `construct_url`, `get_existing`, and the branch on `state`. -/
def mainRun (p : Params) : Result × List ClientCall :=
  match validateParams p with
  | some e => (Result.failJson e, [])
  | none =>
    match p.vm_provider with
    | none => (Result.keyError, [])
    | some v =>
      match VM_PROVIDER_MAPPING v with
      | none => (Result.keyError, [])
      | some tok =>
        let mo : Option String :=
          if p.name = none then none else some (ctrlr_mo_str tok p.domain p.name)
        let c : RootClass :=
          { aci_class := "vmmCtrlrP", aci_rn := ctrlr_rn_str tok p.domain p.name,
            module_object := mo, filter_name := p.domain, filter_ctrlr := p.name }
        if p.state = "present" then
          (Result.exited,
            [ClientCall.construct_url c, ClientCall.get_existing,
             ClientCall.payload ⟨"vmmCtrlrP", class_config p, p.credential⟩,
             ClientCall.get_diff "vmmCtrlrP", ClientCall.post_config,
             ClientCall.exit_json])
        else if p.state = "absent" then
          (Result.exited,
            [ClientCall.construct_url c, ClientCall.get_existing,
             ClientCall.delete_config, ClientCall.exit_json])
        else
          (Result.exited,
            [ClientCall.construct_url c, ClientCall.get_existing,
             ClientCall.exit_json])

/-- Termination result of one invocation. -/
def mainResult (p : Params) : Result := (mainRun p).1

/-- Client calls issued by one invocation, in order. -/
def trace (p : Params) : List ClientCall := (mainRun p).2

/-- Calls that mutate remote state: `post_config` and `delete_config`. -/
def isWrite : ClientCall → Bool
  | ClientCall.post_config => true
  | ClientCall.delete_config => true
  | _ => false

/-- Calls a pure query may issue: `construct_url`, `get_existing` and
the final `exit_json`; excludes `payload`, `get_diff`, `post_config`
and `delete_config`. -/
def isQuerySafe : ClientCall → Bool
  | ClientCall.construct_url _ => true
  | ClientCall.get_existing => true
  | ClientCall.exit_json => true
  | _ => false

/-- The query-all example of spec section 8: domain and provider given,
`name` omitted, state `query`. -/
def exampleQueryAll : Params :=
  { state := "query", domain := some "vmware_dom", vm_provider := some "vmware" }

/-- The create example of spec section 8: domain `vmware_dom`, name
`ctrl1`, provider `vmware`, state `present`, host 10.0.0.5. -/
def examplePresent : Params :=
  { name := some "ctrl1", domain := some "vmware_dom", host_or_ip := some "10.0.0.5",
    state := "present", vm_provider := some "vmware" }

/-- Lookup of an attribute value by key in an attribute list (first
match wins, as in a JSON object). -/
def attrLookup (k : String) : List (String × String) → Option String
  | [] => none
  | kv :: r => if kv.1 = k then some kv.2 else attrLookup k r

/-- Modelled from the spec: the desired-state attribute set the client
assembles from this module's `class_config` and child configuration —
absent (`None`) parameters are dropped (spec section 3 Desired Payload
and the section 8 example, whose payload attributes are only `name` and
`hostOrIp`), and the single `vmmRsAcc` child contributes its `tDn`
under a flattened key. -/
def proposedAttrs (p : Params) : List (String × String) :=
  ((class_config p).filterMap fun kv => kv.2.map fun w => (kv.1, w)) ++
    (match p.credential with
     | some w => [("vmmRsAcc.tDn", w)]
     | none => [])

/-- Modelled from the spec: the client's diff of desired against
existing attributes (spec section 4.1 step 5) — the desired pairs whose
value is not already in place. -/
def diffAttrs (d e : List (String × String)) : List (String × String) :=
  d.filter fun kv => decide (attrLookup kv.1 e ≠ some kv.2)

/-- Modelled from the spec: effect of a write on the remote object —
the transmitted delta overrides, all other attributes persist. -/
def applyAttrs (e u : List (String × String)) : List (String × String) :=
  u ++ e.filter fun kv => (attrLookup kv.1 u).isNone

/-- Modelled from the spec: one `state=present` invocation at the
client level (spec section 4.1 steps 4-5): read the existing
attributes, diff them against this module's desired payload
(`proposedAttrs`), and write only when the diff is non-empty.  Returns
the resulting current attributes and whether a write was issued. -/
def runPresent (p : Params) (s : List (String × String)) :
    List (String × String) × Bool :=
  let d := diffAttrs (proposedAttrs p) s
  if d = [] then (s, false) else (applyAttrs s d, true)

/-- Alias table of the module's own `argument_spec` (source lines
244-252), verbatim: each canonical field name with its declared alias
strings.  Note line 245 lists `credential_name` and
`credential_profile` as aliases of `name`, and line 247 gives
`credential` the single alias string `credential_name, credential_profile`. -/
def moduleArgAliases : List (String × List String) :=
  [("name", ["credential_name", "credential_profile"]),
   ("container", ["datacenter"]),
   ("credential", ["credential_name, credential_profile"]),
   ("description", ["descr"]),
   ("domain", ["domain_name", "domain_profile"]),
   ("host_or_ip", ["controller_hostname", "controller_ip"]),
   ("state", []),
   ("vm_provider", [])]

/-- Alias table declared by the module's own DOCUMENTATION block
(source lines 21-64): `name` aliases `controller_name` and
`controller_profile`; `credential` aliases `credential_name` and
`credential_profile`. -/
def docAliases : List (String × List String) :=
  [("name", ["controller_name", "controller_profile"]),
   ("container", ["datacenter"]),
   ("credential", ["credential_name", "credential_profile"]),
   ("description", ["descr"]),
   ("domain", ["domain_name", "domain_profile", "name"]),
   ("host_or_ip", ["controller_hostname", "controller_ip"]),
   ("state", []),
   ("vm_provider", [])]

/-- Modelled from the spec: alias resolution is a pure renaming — an
input key equal to a canonical field name or to one of its declared
alias strings selects that canonical field. -/
def resolveField (table : List (String × List String)) (k : String) : Option String :=
  (table.find? fun e => k = e.1 || e.2.contains k).map (fun e => e.1)

/-- Character-list form of the distinguished name of source line 274. -/
def identChars (t d n : List Char) : List Char :=
  "uni/vmmp-".data ++ t ++ "/dom-".data ++ d ++ "/ctrlr-".data ++ n

/-- A valid invocation only ever has one of the three declared states. -/
lemma state_of_valid (p : Params) (h : validateParams p = none) :
    p.state = "absent" ∨ p.state = "present" ∨ p.state = "query" := by
  unfold validateParams at h
  by_contra hc
  rw [if_neg hc] at h
  exact Option.noConfusion h

/-- A valid invocation that supplies `vm_provider` supplies one of the
mapping's keys, so the dict lookup at source line 274 succeeds. -/
lemma vm_token_of_valid (p : Params) (v : String) (h : validateParams p = none)
    (hv : p.vm_provider = some v) : ∃ t, VM_PROVIDER_MAPPING v = some t := by
  rcases hm : VM_PROVIDER_MAPPING v with _ | t
  · exfalso
    have hall : p.vm_provider.all (fun w => (VM_PROVIDER_MAPPING w).isSome) = false := by
      rw [hv]
      simp [Option.all, hm]
    unfold validateParams at h
    rw [hall] at h
    simp at h
  · exact ⟨t, rfl⟩

/-- Closed form of `mainRun` on inputs that pass validation and supply a
recognized `vm_provider`. -/
lemma mainRun_eq (p : Params) (v t : String) (h : validateParams p = none)
    (hv : p.vm_provider = some v) (ht : VM_PROVIDER_MAPPING v = some t) :
    mainRun p =
      (Result.exited,
        ClientCall.construct_url
          ⟨"vmmCtrlrP", ctrlr_rn_str t p.domain p.name,
            (if p.name = none then none else some (ctrlr_mo_str t p.domain p.name)),
            p.domain, p.name⟩ ::
        ClientCall.get_existing ::
        (if p.state = "present" then
           [ClientCall.payload ⟨"vmmCtrlrP", class_config p, p.credential⟩,
            ClientCall.get_diff "vmmCtrlrP", ClientCall.post_config,
            ClientCall.exit_json]
         else if p.state = "absent" then
           [ClientCall.delete_config, ClientCall.exit_json]
         else [ClientCall.exit_json])) := by
  simp only [mainRun, h, hv, ht]
  split_ifs <;> rfl

/-- C1: for every input whose state is `present` or `absent` and whose
`domain` is empty or absent, the run fails with a configuration error
and issues zero client calls; for `query` no domain requirement is
enforced. -/
theorem C1_missing_domain_fails_fast (p : Params) :
    ((p.state = "present" ∨ p.state = "absent") →
      (p.domain = none ∨ p.domain = some "") →
      ∃ e, mainRun p = (Result.failJson e, [])) ∧
    (p.state = "query" → mainResult p ≠ Result.failJson ConfigError.missingDomain) := by
  constructor
  · intro hs hd
    have hchoice : p.state = "absent" ∨ p.state = "present" ∨ p.state = "query" := by
      rcases hs with h | h
      · exact Or.inr (Or.inl h)
      · exact Or.inl h
    have hreq : (p.state = "absent" ∨ p.state = "present") ∧
        (p.domain = none ∨ p.domain = some "") := by
      refine ⟨?_, hd⟩
      rcases hs with h | h
      · exact Or.inr h
      · exact Or.inl h
    have hsome : ∃ e, validateParams p = some e := by
      unfold validateParams
      rw [if_pos hchoice]
      rcases hm : p.vm_provider.all (fun v => (VM_PROVIDER_MAPPING v).isSome) with _ | _
      · exact ⟨ConfigError.badChoice, rfl⟩
      · rw [if_pos rfl, if_pos hreq]
        exact ⟨ConfigError.missingDomain, rfl⟩
    rcases hsome with ⟨e, he⟩
    refine ⟨e, ?_⟩
    simp only [mainRun, he]
  · intro hq hcontra
    have hnot : ¬ (p.state = "absent" ∨ p.state = "present") := by
      rw [hq]; decide
    have hval : ∀ e, validateParams p = some e → e = ConfigError.badChoice := by
      intro e he
      unfold validateParams at he
      split_ifs at he with h1 h2 h3
      · exact absurd h3.1 hnot
      · exact ((Option.some.injEq ..).mp he).symm
      · exact ((Option.some.injEq ..).mp he).symm
    unfold mainResult at hcontra
    rcases he : validateParams p with _ | e
    · rcases hv : p.vm_provider with _ | v
      · simp only [mainRun, he, hv] at hcontra
        exact Result.noConfusion hcontra
      · rcases ht : VM_PROVIDER_MAPPING v with _ | t
        · simp only [mainRun, he, hv, ht] at hcontra
          exact Result.noConfusion hcontra
        · simp only [mainRun, he, hv, ht] at hcontra
          split_ifs at hcontra
    · simp only [mainRun, he] at hcontra
      have hbad := hval e he
      subst hbad
      have : ConfigError.badChoice = ConfigError.missingDomain :=
        (Result.failJson.injEq ..).mp hcontra
      exact ConfigError.noConfusion this

/-- C1 witness: the concrete input with state `present` and no domain is
rejected with a configuration error and an empty call trace. -/
theorem C1_missing_domain_fails_fast_witness :
    mainRun { state := "present", vm_provider := some "vmware" } =
      (Result.failJson ConfigError.missingDomain, []) := by
  rcases (C1_missing_domain_fails_fast
      { state := "present", vm_provider := some "vmware" }).1 (Or.inl rfl) (Or.inl rfl)
    with ⟨e, he⟩
  cases e
  · exact absurd he (by decide)
  · exact he

/-- C3 counterexample: the input with state `query` and `vm_provider`
omitted passes argument validation, yet the run terminates with an
uncaught `KeyError` (dict subscript at source line 274) and emits no
result envelope: the call trace is empty, so `exit_json` is never
reached. -/
theorem C3_counterexample :
    validateParams { state := "query", domain := some "vmware_dom" } = none ∧
    mainResult { state := "query", domain := some "vmware_dom" } = Result.keyError ∧
    trace { state := "query", domain := some "vmware_dom" } = [] := by decide

/-- C3 (amended): every run that supplies a `vm_provider` terminates in
a structured way, either exiting normally or failing with a structured
configuration error (an unrecognized `vm_provider` is caught by the
choices check); when `vm_provider` is omitted and validation passes,
the run instead escapes with an unhandled `KeyError`. -/
theorem C3_structured_termination (p : Params) :
    (p.vm_provider.isSome = true →
      mainResult p = Result.exited ∨ ∃ e, mainResult p = Result.failJson e) ∧
    (p.vm_provider = none → validateParams p = none →
      mainResult p = Result.keyError) := by
  constructor
  · intro hvs
    rcases hv : p.vm_provider with _ | v
    · rw [hv] at hvs
      exact absurd hvs (by decide)
    · rcases he : validateParams p with _ | e
      · rcases vm_token_of_valid p v he hv with ⟨t, ht⟩
        left
        unfold mainResult
        rw [mainRun_eq p v t he hv ht]
      · right
        exact ⟨e, by simp only [mainResult, mainRun, he]⟩
  · intro hv he
    simp only [mainResult, mainRun, he, hv]

/-- C3 witness: a run with a recognized provider terminates normally,
and the counterexample input indeed hits the `KeyError` path. -/
theorem C3_structured_termination_witness :
    mainResult exampleQueryAll = Result.exited ∧
    mainResult { state := "query" } = Result.keyError := by
  constructor
  · rcases (C3_structured_termination exampleQueryAll).1 rfl with h | ⟨e, he⟩
    · exact h
    · have hc : mainResult exampleQueryAll = Result.exited := by decide
      rw [hc] at he
      exact Result.noConfusion he
  · exact (C3_structured_termination { state := "query" }).2 rfl (by decide)

/-- C8: a run with state `query` only ever issues `construct_url`,
`get_existing` and `exit_json`: no `payload`, `get_diff`, `post_config`
or `delete_config` call occurs. -/
theorem C8_query_issues_no_mutation (p : Params) (h : p.state = "query") :
    ∀ e ∈ trace p, isQuerySafe e = true := by
  intro e he
  rcases hval : validateParams p with _ | err
  · rcases hv : p.vm_provider with _ | v
    · simp only [trace, mainRun, hval, hv] at he
      exact absurd he (List.not_mem_nil e)
    · rcases ht : VM_PROVIDER_MAPPING v with _ | t
      · simp only [trace, mainRun, hval, hv, ht] at he
        exact absurd he (List.not_mem_nil e)
      · have heq := mainRun_eq p v t hval hv ht
        unfold trace at he
        rw [heq, h] at he
        rw [if_neg (by decide : ¬ (("query" : String) = "present")),
          if_neg (by decide : ¬ (("query" : String) = "absent"))] at he
        simp only [List.mem_cons, List.not_mem_nil, or_false] at he
        rcases he with h1 | h1 | h1 <;> subst h1 <;> rfl
  · simp only [trace, mainRun, hval] at he
    exact absurd he (List.not_mem_nil e)

/-- C8 witness: the query-all example issues only query-safe calls. -/
theorem C8_query_issues_no_mutation_witness :
    (trace exampleQueryAll).all isQuerySafe = true :=
  List.all_eq_true.mpr (fun e he => C8_query_issues_no_mutation exampleQueryAll rfl e he)

/-- C4: whenever `name` is omitted, any `construct_url` call the module
issues carries `module_object = none` (the identifier is cleared at
source lines 277-279), so no identifier string with a `ctrlr-` suffix
is handed to the client as the object to fetch. -/
theorem C4_omitted_name_null_identifier (p : Params) (h : p.name = none) :
    ∀ c, ClientCall.construct_url c ∈ trace p →
      c.module_object = none ∧
      ∀ s, c.module_object = some s → ¬ ("ctrlr-".data <:+: s.data) := by
  intro c hc
  rcases hval : validateParams p with _ | err
  · rcases hv : p.vm_provider with _ | v
    · simp only [trace, mainRun, hval, hv] at hc
      exact absurd hc (List.not_mem_nil _)
    · rcases ht : VM_PROVIDER_MAPPING v with _ | t
      · simp only [trace, mainRun, hval, hv, ht] at hc
        exact absurd hc (List.not_mem_nil _)
      · have heq := mainRun_eq p v t hval hv ht
        unfold trace at hc
        rw [heq, h, if_pos rfl] at hc
        have hco : c = ⟨"vmmCtrlrP", ctrlr_rn_str t p.domain none, none,
            p.domain, none⟩ := by
          split_ifs at hc <;> simp at hc <;> exact hc
        subst hco
        refine ⟨rfl, ?_⟩
        intro s hs
        exact Option.noConfusion hs
  · simp only [trace, mainRun, hval] at hc
    exact absurd hc (List.not_mem_nil _)

/-- C4 witness: the query-all example's `construct_url` call carries the
cleared identifier. -/
theorem C4_omitted_name_null_identifier_witness :
    ClientCall.construct_url
      ⟨"vmmCtrlrP", "vmmp-VMware/dom-vmware_dom/ctrlr-None", none,
        some "vmware_dom", none⟩ ∈ trace exampleQueryAll ∧
    ({ aci_class := "vmmCtrlrP", aci_rn := "vmmp-VMware/dom-vmware_dom/ctrlr-None",
       module_object := none, filter_name := some "vmware_dom",
       filter_ctrlr := none } : RootClass).module_object = none := by
  constructor
  · decide
  · exact (C4_omitted_name_null_identifier exampleQueryAll rfl _ (by decide)).1

/-- C10 counterexample: the input with state `absent`, domain supplied,
`name` omitted and `vm_provider` omitted passes argument validation
(the `required_if` rules only demand `domain`), yet `delete_config` is
never invoked: the run aborts with the uncaught `KeyError` of source
line 274 before any client call, so the claim fails on inputs that
omit `vm_provider`. -/
theorem C10_counterexample :
    validateParams { state := "absent", domain := some "vmware_dom" } = none ∧
    mainResult { state := "absent", domain := some "vmware_dom" } = Result.keyError ∧
    ClientCall.delete_config ∉
      trace { state := "absent", domain := some "vmware_dom" } := by decide

/-- C10 (amended): with state `absent`, a validated run that supplies a
`vm_provider` and omits `name` still issues `delete_config`, against
the cleared (collection-level) identifier: deletion is not guarded on a
specific controller name. -/
theorem C10_absent_without_name_deletes (p : Params) (v : String) (h : p.state = "absent")
    (hval : validateParams p = none) (hv : p.vm_provider = some v) (hn : p.name = none) :
    ClientCall.delete_config ∈ trace p ∧
    ∃ c, ClientCall.construct_url c ∈ trace p ∧ c.module_object = none := by
  rcases vm_token_of_valid p v hval hv with ⟨t, ht⟩
  have heq := mainRun_eq p v t hval hv ht
  unfold trace
  rw [heq, h, if_neg (by decide : ¬ (("absent" : String) = "present")), if_pos rfl]
  constructor
  · simp
  · refine ⟨_, List.mem_cons_self _ _, ?_⟩
    simp [hn]

/-- C10 witness: the concrete absent-without-name input issues
`delete_config`. -/
theorem C10_absent_without_name_deletes_witness :
    ClientCall.delete_config ∈
      trace { state := "absent", domain := some "vmware_dom",
              vm_provider := some "vmware" } :=
  (C10_absent_without_name_deletes
    { state := "absent", domain := some "vmware_dom", vm_provider := some "vmware" }
    "vmware" rfl (by decide) rfl rfl).1

/-- C7 counterexample: the input with state `query` and `vm_provider`
omitted passes argument validation yet `get_existing` is invoked zero
times, not exactly once (the run aborts with a `KeyError` before any
client call). -/
theorem C7_counterexample :
    validateParams { state := "query" } = none ∧
    (trace { state := "query" }).count ClientCall.get_existing = 0 := by decide

/-- C7 (amended): for every input that passes validation and supplies a
`vm_provider`, `get_existing` is issued exactly once — as the second
call, right after `construct_url` and before everything else — and
every mutating call (`post_config`, `delete_config`) occurs strictly
after it. -/
theorem C7_read_once_before_writes (p : Params) (v : String)
    (hval : validateParams p = none) (hv : p.vm_provider = some v) :
    ∃ c r, trace p = ClientCall.construct_url c :: ClientCall.get_existing :: r ∧
      ClientCall.get_existing ∉ r ∧
      ∀ e ∈ trace p, isWrite e = true → e ∈ r := by
  rcases vm_token_of_valid p v hval hv with ⟨t, ht⟩
  have heq := mainRun_eq p v t hval hv ht
  refine ⟨_, _, congrArg Prod.snd heq, ?_, ?_⟩
  · split_ifs <;> simp
  · intro e he hw
    unfold trace at he
    rw [heq] at he
    simp only [List.mem_cons] at he
    rcases he with rfl | rfl | he
    · exact absurd hw (by simp [isWrite])
    · exact absurd hw (by simp [isWrite])
    · exact he

/-- C7 witness: on the query-all example the read is indeed issued. -/
theorem C7_read_once_before_writes_witness :
    ClientCall.get_existing ∈ trace exampleQueryAll := by
  rcases C7_read_once_before_writes exampleQueryAll "vmware" (by decide) rfl with
    ⟨c, r, h1, h2, h3⟩
  rw [h1]
  exact List.mem_cons_of_mem _ (List.mem_cons_self _ _)

lemma attrLookup_append_left (k v : String) (a b : List (String × String))
    (h : attrLookup k a = some v) : attrLookup k (a ++ b) = some v := by
  induction a with
  | nil => exact Option.noConfusion h
  | cons x r ih =>
    rw [List.cons_append]
    unfold attrLookup at h ⊢
    split_ifs at h ⊢ with hx
    · exact h
    · exact ih h

lemma attrLookup_append_right (k : String) (a b : List (String × String))
    (h : attrLookup k a = none) : attrLookup k (a ++ b) = attrLookup k b := by
  induction a with
  | nil => rfl
  | cons x r ih =>
    rw [List.cons_append]
    unfold attrLookup at h
    split_ifs at h with hxk
    show (if x.1 = k then some x.2 else attrLookup k (r ++ b)) = attrLookup k b
    rw [if_neg hxk]
    exact ih h

lemma attrLookup_none_iff (k : String) (l : List (String × String)) :
    attrLookup k l = none ↔ ∀ ab ∈ l, ab.1 ≠ k := by
  induction l with
  | nil => simp [attrLookup]
  | cons x r ih =>
    unfold attrLookup
    split_ifs with hx
    · constructor
      · intro h
        exact absurd h (by simp)
      · intro h
        exact absurd hx (h x (List.mem_cons_self x r))
    · rw [ih]
      constructor
      · intro h ab hab
        rcases List.mem_cons.mp hab with rfl | hab2
        · exact hx
        · exact h ab hab2
      · intro h ab hab
        exact h ab (List.mem_cons_of_mem x hab)

lemma attrLookup_mem_nodup (kv : String × String) (l : List (String × String))
    (hn : (l.map Prod.fst).Nodup) (hm : kv ∈ l) : attrLookup kv.1 l = some kv.2 := by
  induction l with
  | nil => exact absurd hm (List.not_mem_nil kv)
  | cons x r ih =>
    rw [List.map_cons, List.nodup_cons] at hn
    rcases List.mem_cons.mp hm with rfl | hm
    · unfold attrLookup
      rw [if_pos rfl]
    · unfold attrLookup
      split_ifs with hx
      · exfalso
        exact hn.1 (hx ▸ List.mem_map_of_mem Prod.fst hm)
      · exact ih hn.2 hm

lemma attrLookup_filter_key (k : String) (l : List (String × String))
    (q : String → Bool) :
    attrLookup k (l.filter fun kv => q kv.1) =
      if q k = true then attrLookup k l else none := by
  induction l with
  | nil => simp [attrLookup]
  | cons x r ih =>
    rw [List.filter_cons]
    by_cases hqx : q x.1 = true
    · rw [if_pos hqx]
      simp only [attrLookup]
      by_cases hxk : x.1 = k
      · have hqk : q k = true := hxk ▸ hqx
        rw [if_pos hxk, if_pos hqk, if_pos hxk]
      · rw [if_neg hxk, ih]
        by_cases hqk : q k = true
        · rw [if_pos hqk, if_pos hqk, if_neg hxk]
        · rw [if_neg hqk, if_neg hqk]
    · rw [if_neg hqx, ih]
      by_cases hqk : q k = true
      · rw [if_pos hqk, if_pos hqk]
        have hxk : ¬ x.1 = k := fun hh => hqx (hh ▸ hqk)
        conv_rhs => rw [attrLookup]
        rw [if_neg hxk]
      · rw [if_neg hqk, if_neg hqk]

/-- The desired payload never repeats an attribute key: its keys come
from the four fixed `class_config` keys plus the flattened child key. -/
lemma proposed_keys_nodup (p : Params) :
    ((proposedAttrs p).map Prod.fst).Nodup := by
  rcases p with ⟨n, co, cr, de, dom, ho, st, vp⟩
  cases de <;> cases ho <;> cases n <;> cases co <;> cases cr <;>
    simp [proposedAttrs, class_config]

/-- After the client writes the diff of the desired payload against the
existing attributes, every desired pair is in place. -/
lemma lookup_after_write (pr e : List (String × String))
    (hn : (pr.map Prod.fst).Nodup) :
    ∀ kv ∈ pr, attrLookup kv.1 (applyAttrs e (diffAttrs pr e)) = some kv.2 := by
  intro kv hm
  have hdsub : (diffAttrs pr e).Sublist pr := List.filter_sublist pr
  by_cases hin : attrLookup kv.1 e = some kv.2
  · have hnotd : attrLookup kv.1 (diffAttrs pr e) = none := by
      rw [attrLookup_none_iff]
      intro ab hab habk
      have habp : ab ∈ pr := List.mem_of_mem_filter hab
      have hpred := List.of_mem_filter hab
      have h1 : attrLookup kv.1 pr = some kv.2 := attrLookup_mem_nodup kv pr hn hm
      have h2 : attrLookup ab.1 pr = some ab.2 := attrLookup_mem_nodup ab pr hn habp
      rw [habk, h1] at h2
      have hval : ab.2 = kv.2 := (Option.some.injEq ..).mp h2.symm
      rw [decide_eq_true_iff] at hpred
      exact hpred (by rw [habk, hval, hin])
    unfold applyAttrs
    rw [attrLookup_append_right kv.1 (diffAttrs pr e) _ hnotd,
      attrLookup_filter_key kv.1 e (fun x => (attrLookup x (diffAttrs pr e)).isNone)]
    rw [if_pos (by rw [hnotd]; rfl)]
    exact hin
  · have hkd : kv ∈ diffAttrs pr e :=
      List.mem_filter.mpr ⟨hm, decide_eq_true hin⟩
    have hdn : ((diffAttrs pr e).map Prod.fst).Nodup :=
      List.Nodup.sublist (List.Sublist.map Prod.fst hdsub) hn
    have hlk : attrLookup kv.1 (diffAttrs pr e) = some kv.2 :=
      attrLookup_mem_nodup kv _ hdn hkd
    unfold applyAttrs
    exact attrLookup_append_left kv.1 kv.2 _ _ hlk

/-- C6: with state `present`, the operation is idempotent — after a
first invocation from any starting state, a second invocation with the
same inputs computes an empty diff, issues no write, and reports the
same current attributes as the first. -/
theorem C6_present_idempotent (p : Params) (s : List (String × String))
    (h : p.state = "present") :
    (runPresent p (runPresent p s).1).2 = false ∧
    (runPresent p (runPresent p s).1).1 = (runPresent p s).1 := by
  have hn := proposed_keys_nodup p
  have key : ∀ kv ∈ proposedAttrs p, attrLookup kv.1 (runPresent p s).1 = some kv.2 := by
    intro kv hm
    show attrLookup kv.1
      (if diffAttrs (proposedAttrs p) s = [] then (s, false)
       else (applyAttrs s (diffAttrs (proposedAttrs p) s), true)).1 = some kv.2
    split_ifs with hd
    · have hall := List.filter_eq_nil_iff.mp hd kv hm
      rw [decide_eq_true_iff, not_not] at hall
      exact hall
    · exact lookup_after_write (proposedAttrs p) s hn kv hm
  have hempty : diffAttrs (proposedAttrs p) (runPresent p s).1 = [] := by
    apply List.filter_eq_nil_iff.mpr
    intro kv hm
    rw [key kv hm]
    simp
  constructor
  · show (if diffAttrs (proposedAttrs p) (runPresent p s).1 = [] then
        ((runPresent p s).1, false)
      else (applyAttrs (runPresent p s).1 (diffAttrs (proposedAttrs p) (runPresent p s).1),
        true)).2 = false
    rw [hempty, if_pos rfl]
  · show (if diffAttrs (proposedAttrs p) (runPresent p s).1 = [] then
        ((runPresent p s).1, false)
      else (applyAttrs (runPresent p s).1 (diffAttrs (proposedAttrs p) (runPresent p s).1),
        true)).1 = (runPresent p s).1
    rw [hempty, if_pos rfl]

/-- C6 witness: the section 8 create example, run twice from an empty
remote object, writes once and is then stable. -/
theorem C6_present_idempotent_witness :
    examplePresent.state = "present" ∧
    (runPresent examplePresent (runPresent examplePresent []).1).2 = false ∧
    (runPresent examplePresent (runPresent examplePresent []).1).1 =
      (runPresent examplePresent []).1 :=
  ⟨rfl, C6_present_idempotent examplePresent [] rfl⟩

/-- C5: every `payload` call a `state=present` run issues carries class
`vmmCtrlrP`, exactly the four `class_config` attributes (`descr`,
`hostOrIp`, `name`, `rootContName`) and the single `vmmRsAcc` child
whose `tDn` is the `credential` parameter; the section 8 example does
issue such a call, and its non-absent payload attributes are exactly
`hostOrIp = 10.0.0.5` and `name = ctrl1`. -/
theorem C5_present_payload_shape :
    (∀ (p : Params) (c : PayloadCall), p.state = "present" →
      ClientCall.payload c ∈ trace p →
        c.aci_class = "vmmCtrlrP" ∧ c.config = class_config p ∧
        c.child_tDn = p.credential) ∧
    ClientCall.payload ⟨"vmmCtrlrP", class_config examplePresent, none⟩ ∈
      trace examplePresent ∧
    proposedAttrs examplePresent = [("hostOrIp", "10.0.0.5"), ("name", "ctrl1")] := by
  refine ⟨?_, by decide, by decide⟩
  intro p c hs hc
  rcases hval : validateParams p with _ | err
  · rcases hv : p.vm_provider with _ | v
    · simp only [trace, mainRun, hval, hv] at hc
      exact absurd hc (List.not_mem_nil _)
    · rcases ht : VM_PROVIDER_MAPPING v with _ | t
      · simp only [trace, mainRun, hval, hv, ht] at hc
        exact absurd hc (List.not_mem_nil _)
      · have heq := mainRun_eq p v t hval hv ht
        unfold trace at hc
        rw [heq, hs, if_pos rfl] at hc
        have hco : c = ⟨"vmmCtrlrP", class_config p, p.credential⟩ := by
          simp at hc
          exact hc
        subst hco
        exact ⟨rfl, rfl, rfl⟩
  · simp only [trace, mainRun, hval] at hc
    exact absurd hc (List.not_mem_nil _)

/-- C5 witness: the payload call of the section 8 example has the
stated shape. -/
theorem C5_present_payload_shape_witness :
    ({ aci_class := "vmmCtrlrP", config := class_config examplePresent,
       child_tDn := none } : PayloadCall).aci_class = "vmmCtrlrP" ∧
    ({ aci_class := "vmmCtrlrP", config := class_config examplePresent,
       child_tDn := none } : PayloadCall).config = class_config examplePresent ∧
    ({ aci_class := "vmmCtrlrP", config := class_config examplePresent,
       child_tDn := none } : PayloadCall).child_tDn = examplePresent.credential :=
  C5_present_payload_shape.1 examplePresent
    ⟨"vmmCtrlrP", class_config examplePresent, none⟩ rfl (by decide)

/-- C9: evaluating alias resolution over the source's `argument_spec`:
the input keys `credential_name` and `credential_profile` resolve to
the `name` field (source line 245), not to `credential` as the claim
and the module's own DOCUMENTATION state; `credential` is reachable
only through the literal comma-containing string registered at source
line 247. -/
theorem C9_credential_alias_defect :
    resolveField moduleArgAliases "credential_name" = some "name" ∧
    resolveField moduleArgAliases "credential_profile" = some "name" ∧
    resolveField docAliases "credential_name" = some "credential" ∧
    resolveField docAliases "credential_profile" = some "credential" ∧
    resolveField moduleArgAliases "credential_name, credential_profile" =
      some "credential" ∧
    ("credential", ["credential_name, credential_profile"]) ∈ moduleArgAliases := by
  decide

lemma ctrlr_mo_data (t d n : String) :
    (ctrlr_mo_str t (some d) (some n)).data = identChars t.data d.data n.data := rfl

lemma inf_of_pfx {α : Type} (u x : List α) (h : u <+: x) : u <:+: x := by
  rcases h with ⟨w, hw⟩
  exact ⟨[], w, by simpa using hw⟩

/-- A prefix of `a ++ c :: b` avoiding the separator `c` is a prefix of `a`. -/
lemma pfx_avoid {α : Type} (c : α) :
    ∀ (a u b : List α), c ∉ u → u <+: a ++ c :: b → u <+: a := by
  intro a
  induction a with
  | nil =>
    intro u b hc h
    cases u with
    | nil => exact List.nil_prefix
    | cons y u2 =>
      rw [List.nil_append] at h
      rcases List.cons_prefix_cons.mp h with ⟨hy, h2⟩
      subst hy
      exact absurd (List.mem_cons_self y u2) hc
  | cons z a2 ih =>
    intro u b hc h
    cases u with
    | nil => exact List.nil_prefix
    | cons y u2 =>
      rw [List.cons_append] at h
      rcases List.cons_prefix_cons.mp h with ⟨hy, h2⟩
      subst hy
      have hc2 : c ∉ u2 := fun hm => hc (List.mem_cons_of_mem _ hm)
      exact List.cons_prefix_cons.mpr ⟨rfl, ih u2 b hc2 h2⟩

/-- An occurrence inside `a ++ c :: b` that avoids the separator `c`
lies entirely inside `a` or entirely inside `b`. -/
lemma inf_avoid {α : Type} (c : α) :
    ∀ (a u b : List α), c ∉ u → u <:+: a ++ c :: b → u <:+: a ∨ u <:+: b := by
  intro a
  induction a with
  | nil =>
    intro u b hc h
    rw [List.nil_append] at h
    rcases List.infix_cons_iff.mp h with h | h
    · cases u with
      | nil => exact Or.inl (inf_of_pfx _ _ ( List.nil_prefix))
      | cons y u2 =>
        rcases List.cons_prefix_cons.mp h with ⟨hy, h2⟩
        subst hy
        exact absurd (List.mem_cons_self y u2) hc
    · exact Or.inr h
  | cons z a2 ih =>
    intro u b hc h
    rw [List.cons_append] at h
    rcases List.infix_cons_iff.mp h with h | h
    · have hp : u <+: z :: a2 := by
        apply pfx_avoid c (z :: a2) u b hc
        rw [List.cons_append]
        exact h
      exact Or.inl (inf_of_pfx _ _ hp)
    · rcases ih u b hc h with h2 | h2
      · exact Or.inl (List.infix_cons h2)
      · exact Or.inr h2

/-- Any occurrence of a separator-free string in the distinguished name
lies in one of its seven segments. -/
lemma ident_split (u t d n : List Char)
    (hs : ('/' : Char) ∉ u) (hy : ('-' : Char) ∉ u)
    (h : u <:+: identChars t d n) :
    u <:+: "uni".data ∨ u <:+: "vmmp".data ∨ u <:+: t ∨ u <:+: "dom".data ∨
      u <:+: d ∨ u <:+: "ctrlr".data ∨ u <:+: n := by
  have h0 : identChars t d n =
      "uni".data ++ '/' :: ("vmmp".data ++ '-' :: (t ++ '/' ::
        ("dom".data ++ '-' :: (d ++ '/' :: ("ctrlr".data ++ '-' :: n))))) := by
    simp [identChars, List.append_assoc]
  rw [h0] at h
  rcases inf_avoid '/' "uni".data u _ hs h with h | h
  · exact Or.inl h
  rcases inf_avoid '-' "vmmp".data u _ hy h with h | h
  · exact Or.inr (Or.inl h)
  rcases inf_avoid '/' t u _ hs h with h | h
  · exact Or.inr (Or.inr (Or.inl h))
  rcases inf_avoid '-' "dom".data u _ hy h with h | h
  · exact Or.inr (Or.inr (Or.inr (Or.inl h)))
  rcases inf_avoid '/' d u _ hs h with h | h
  · exact Or.inr (Or.inr (Or.inr (Or.inr (Or.inl h))))
  rcases inf_avoid '-' "ctrlr".data u _ hy h with h | h
  · exact Or.inr (Or.inr (Or.inr (Or.inr (Or.inr (Or.inl h)))))
  · exact Or.inr (Or.inr (Or.inr (Or.inr (Or.inr (Or.inr h)))))

/-- The provider's own token occurs in the distinguished name. -/
lemma token_in_ident (t d n : List Char) : t <:+: identChars t d n :=
  ⟨"uni/vmmp-".data, "/dom-".data ++ d ++ "/ctrlr-".data ++ n,
    by simp [identChars, List.append_assoc]⟩

/-- Display tokens contain no separator and fit in no fixed segment of
the distinguished-name template. -/
lemma token_facts :
    ∀ u ∈ providerTokens,
      ('/' : Char) ∉ u.data ∧ ('-' : Char) ∉ u.data ∧
      ¬ (u.data <:+: "uni".data) ∧ ¬ (u.data <:+: "vmmp".data) ∧
      ¬ (u.data <:+: "dom".data) ∧ ¬ (u.data <:+: "ctrlr".data) := by decide

/-- No display token occurs inside a different display token. -/
lemma token_pairs :
    ∀ u ∈ providerTokens, ∀ w ∈ providerTokens, u ≠ w → ¬ (u.data <:+: w.data) := by
  decide

/-- The mapping only produces the seven display tokens. -/
lemma mapping_token_mem (v t : String) (h : VM_PROVIDER_MAPPING v = some t) :
    t ∈ providerTokens := by
  unfold VM_PROVIDER_MAPPING at h
  split_ifs at h <;> simp_all [providerTokens]

/-- C2 counterexample: with provider `openshift` and the non-empty
domain `VMware_dom`, the built identifier contains the display token
`VMware` of a different provider, so the claim's "contains no other
provider token" fails for arbitrary non-empty domains and names. -/
theorem C2_identifier_counterexample :
    VM_PROVIDER_MAPPING "openshift" = some "OpenShift" ∧
    VM_PROVIDER_MAPPING "vmware" = some "VMware" ∧
    ("VMware" : String) ≠ "OpenShift" ∧
    ("VMware_dom" : String) ≠ "" ∧ ("ctrl1" : String) ≠ "" ∧
    "VMware".data <:+:
      (ctrlr_mo_str "OpenShift" (some "VMware_dom") (some "ctrl1")).data := by
  refine ⟨rfl, rfl, by decide, by decide, by decide, ?_⟩
  rw [ctrlr_mo_data]
  exact ⟨"uni/vmmp-OpenShift/dom-".data, "_dom/ctrlr-ctrl1".data, by decide⟩

/-- C2 (amended): for every provider key and every non-empty domain and
name that do not themselves contain a provider display token, the built
identifier equals the template `uni/vmmp-` token `/dom-` domain
`/ctrlr-` name, contains the provider's display token, and contains no
other provider token; and the section 8 example input yields the
identifier `uni/vmmp-VMware/dom-vmware_dom/ctrlr-ctrl1`, handed to
`construct_url` as the module object. -/
theorem C2_identifier_token :
    (∀ (v t d n : String), VM_PROVIDER_MAPPING v = some t →
      d ≠ "" → n ≠ "" →
      (∀ u ∈ providerTokens, ¬ (u.data <:+: d.data) ∧ ¬ (u.data <:+: n.data)) →
      ctrlr_mo_str t (some d) (some n) =
        "uni/vmmp-" ++ t ++ "/dom-" ++ d ++ "/ctrlr-" ++ n ∧
      t.data <:+: (ctrlr_mo_str t (some d) (some n)).data ∧
      ∀ u ∈ providerTokens, u ≠ t →
        ¬ (u.data <:+: (ctrlr_mo_str t (some d) (some n)).data)) ∧
    ClientCall.construct_url
      ⟨"vmmCtrlrP", "vmmp-VMware/dom-vmware_dom/ctrlr-ctrl1",
        some "uni/vmmp-VMware/dom-vmware_dom/ctrlr-ctrl1",
        some "vmware_dom", some "ctrl1"⟩ ∈ trace examplePresent := by
  constructor
  · intro v t d n hmap hd hn hfree
    have htok : t ∈ providerTokens := mapping_token_mem v t hmap
    refine ⟨rfl, ?_, ?_⟩
    · rw [ctrlr_mo_data]
      exact token_in_ident t.data d.data n.data
    · intro u hu hne hcontra
      rw [ctrlr_mo_data] at hcontra
      obtain ⟨hslash, hdash, hu1, hu2, hu3, hu4⟩ := token_facts u hu
      rcases ident_split u.data t.data d.data n.data hslash hdash hcontra with
        h | h | h | h | h | h | h
      · exact hu1 h
      · exact hu2 h
      · exact token_pairs u hu t htok hne h
      · exact hu3 h
      · exact (hfree u hu).1 h
      · exact hu4 h
      · exact (hfree u hu).2 h
  · decide

/-- C2 witness: instantiating on the section 8 example values. -/
theorem C2_identifier_token_witness :
    ctrlr_mo_str "VMware" (some "vmware_dom") (some "ctrl1") =
      "uni/vmmp-" ++ "VMware" ++ "/dom-" ++ "vmware_dom" ++ "/ctrlr-" ++ "ctrl1" ∧
    "VMware".data <:+:
      (ctrlr_mo_str "VMware" (some "vmware_dom") (some "ctrl1")).data ∧
    ¬ ("OpenShift".data <:+:
      (ctrlr_mo_str "VMware" (some "vmware_dom") (some "ctrl1")).data) ∧
    ClientCall.construct_url
      ⟨"vmmCtrlrP", "vmmp-VMware/dom-vmware_dom/ctrlr-ctrl1",
        some "uni/vmmp-VMware/dom-vmware_dom/ctrlr-ctrl1",
        some "vmware_dom", some "ctrl1"⟩ ∈ trace examplePresent := by
  have h := C2_identifier_token.1 "vmware" "VMware" "vmware_dom"
    "ctrl1" rfl (by decide) (by decide) (by decide)
  exact ⟨h.1, h.2.1, h.2.2 "OpenShift" (by decide) (by decide),
    C2_identifier_token.2⟩
